import Mathlib

/-!
Verification of the keenetic-TG-Bot core against its specification.

The Python source is shallowly embedded: strings are `List Char`, Python
dicts are either association lists (when insertion order matters) or plain
functions with an explicit default, wall-clock times are `Int` seconds, and
the mutable object state of each class is threaded explicitly through the
embedded methods.
-/

namespace Callback

/-- Python `s.find(sep)` / one splitting step: the part of `s` strictly
before the first occurrence of `sep` and the part strictly after it,
or `none` when `sep` does not occur (`sep in s` is `false`). -/
def firstSplit (sep : Char) : List Char → Option (List Char × List Char)
  | [] => none
  | c :: cs =>
    if c = sep then some ([], cs)
    else
      match firstSplit sep cs with
      | none => none
      | some (a, b) => some (c :: a, b)

/-- Python `s.split(sep, 2)`: split on at most the first two occurrences
of `sep`, the third part keeping any further occurrences. -/
def pySplit2 (sep : Char) (s : List Char) : List (List Char) :=
  match firstSplit sep s with
  | none => [s]
  | some (a, b) =>
    match firstSplit sep b with
    | none => [a, b]
    | some (c, d) => [a, c, d]

/-- Python `d[k] = v` on an insertion-ordered dict represented as an
association list: overwrite in place when the key exists, append otherwise. -/
def dictSet (ps : List (List Char × List Char)) (k v : List Char) :
    List (List Char × List Char) :=
  if ps.any (fun p => p.1 = k) then
    ps.map (fun p => if p.1 = k then (k, v) else p)
  else ps ++ [(k, v)]

/-- The decoded callback request of `parse_cb` in
`keenetic-tg-bot/modules/app.py`: `(mod, cmd, params)`. -/
structure CbReq where
  mod : List Char
  cmd : List Char
  params : List (List Char × List Char)
  deriving DecidableEq, Repr

/-- The canonical default command `"m"` used when the cmd segment is
missing or empty. -/
def default_cmd : List Char := ['m']

/-- The reserved no-op token `"noop"`. -/
def noop_tok : List Char := "noop".toList

/-- The params segment parser of `parse_cb`: split the query string on
`&`, skip empty segments, split each segment on the first `=` (a segment
without `=` becomes a key with empty value), assign into the dict. -/
def parseParams (qs : List Char) : List (List Char × List Char) :=
  (qs.splitOn '&').foldl
    (fun ps seg =>
      if seg = [] then ps
      else
        match firstSplit '=' seg with
        | some (k, v) => dictSet ps k v
        | none => dictSet ps seg [])
    []

/-- `parse_cb` from `keenetic-tg-bot/modules/app.py` (lines 25-48):
empty data yields empty fields, the literal `"noop"` yields the no-op
request, otherwise `data.split("|", 2)` with cmd defaulting to `"m"`
when absent or empty, and the params dict parsed from the third segment
when present. -/
def parse_cb (data : List Char) : CbReq :=
  if data = [] then ⟨[], [], []⟩
  else if data = noop_tok then ⟨noop_tok, noop_tok, []⟩
  else
    let parts := pySplit2 '|' data
    let mod := parts.headD []
    let cmd :=
      match parts with
      | _ :: c :: _ => if c = [] then default_cmd else c
      | _ => default_cmd
    let qs :=
      match parts with
      | _ :: _ :: q :: _ => q
      | _ => []
    ⟨mod, cmd, if qs = [] then [] else parseParams qs⟩

/-- Modelled from the spec: `CallbackCodec.encode` (§4.1) is not present in
the source (buttons hand-format their tokens); per the spec it joins module
and cmd with the delimiter `|`, then serializes params as `k=v` pairs joined
by `&`, omitting the params segment entirely when the map is empty. -/
def encode (m c : List Char) (p : List (List Char × List Char)) : List Char :=
  let base := m ++ '|' :: c
  if p = [] then base
  else base ++ '|' :: List.intercalate ['&'] (p.map (fun kv => kv.1 ++ '=' :: kv.2))

end Callback

namespace Callback

theorem firstSplit_of_not_mem {sep : Char} {s : List Char} (h : sep ∉ s) :
    firstSplit sep s = none := by
  induction s with
  | nil => rfl
  | cons c cs ih =>
    rw [List.mem_cons, not_or] at h
    rw [firstSplit, if_neg (fun e => h.1 e.symm), ih h.2]

theorem firstSplit_append {sep : Char} {a : List Char} (b : List Char) (h : sep ∉ a) :
    firstSplit sep (a ++ sep :: b) = some (a, b) := by
  induction a with
  | nil => simp [firstSplit]
  | cons c cs ih =>
    rw [List.mem_cons, not_or] at h
    rw [List.cons_append, firstSplit, if_neg (fun e => h.1 e.symm), ih h.2]

theorem intercalate_cons_ne_nil (sep a : List Char) (l : List (List Char)) (ha : a ≠ []) :
    List.intercalate sep (a :: l) ≠ [] := by
  cases l with
  | nil => simpa [List.intercalate] using ha
  | cons b t => simp [List.intercalate, ha]

theorem parseFold (p : List (List Char × List Char)) (acc : List (List Char × List Char))
    (hk : ∀ kv ∈ p, '=' ∉ kv.1)
    (hdisj : ∀ kv ∈ p, ∀ q ∈ acc, q.1 ≠ kv.1)
    (hnd : (p.map Prod.fst).Nodup) :
    (p.map (fun kv => kv.1 ++ '=' :: kv.2)).foldl
      (fun ps seg =>
        if seg = [] then ps
        else
          match firstSplit '=' seg with
          | some (k, v) => dictSet ps k v
          | none => dictSet ps seg []) acc = acc ++ p := by
  induction p generalizing acc with
  | nil => simp
  | cons kv rest ih =>
    have hseg : kv.1 ++ '=' :: kv.2 ≠ [] := by simp
    have hfs : firstSplit '=' (kv.1 ++ '=' :: kv.2) = some (kv.1, kv.2) :=
      firstSplit_append kv.2 (hk kv (List.mem_cons_self kv rest))
    have hany : ¬ acc.any (fun q => q.1 = kv.1) = true := by
      simp only [List.any_eq_true, decide_eq_true_eq, not_exists]
      intro q
      exact fun hqmem => absurd hqmem.2 (hdisj kv (List.mem_cons_self kv rest) q hqmem.1)
    have hstep : dictSet acc kv.1 kv.2 = acc ++ [(kv.1, kv.2)] := by
      rw [dictSet, if_neg hany]
    simp only [List.map_cons, List.foldl_cons, if_neg hseg, hfs, hstep]
    rw [List.map_cons, List.nodup_cons] at hnd
    rw [ih (acc ++ [(kv.1, kv.2)])
      (fun kv' h' => hk kv' (List.mem_cons_of_mem _ h'))
      (fun kv' h' q hq => by
        rcases List.mem_append.mp hq with hq | hq
        · exact hdisj kv' (List.mem_cons_of_mem _ h') q hq
        · rcases List.mem_singleton.mp hq with rfl
          intro e
          exact hnd.1 (e ▸ List.mem_map_of_mem Prod.fst h'))
      hnd.2]
    simp

end Callback

namespace Callback

theorem parseParams_intercalate (p : List (List Char × List Char))
    (hkeys : ∀ kv ∈ p, '=' ∉ kv.1 ∧ '&' ∉ kv.1)
    (hvals : ∀ kv ∈ p, '=' ∉ kv.2 ∧ '&' ∉ kv.2)
    (hnd : (p.map Prod.fst).Nodup) (hp : p ≠ []) :
    parseParams (List.intercalate ['&'] (p.map (fun kv => kv.1 ++ '=' :: kv.2))) = p := by
  have hsplit : (List.intercalate ['&'] (p.map (fun kv => kv.1 ++ '=' :: kv.2))).splitOn '&'
      = p.map (fun kv => kv.1 ++ '=' :: kv.2) := by
    apply List.splitOn_intercalate
    · intro l hl
      rcases List.mem_map.mp hl with ⟨kv, hkv, rfl⟩
      intro hmem
      rcases List.mem_append.mp hmem with h1 | h1
      · exact (hkeys kv hkv).2 h1
      · rcases List.mem_cons.mp h1 with h2 | h2
        · exact absurd h2 (by decide)
        · exact (hvals kv hkv).2 h2
    · simp [hp]
  rw [parseParams, hsplit]
  simpa using parseFold p [] (fun kv h => (hkeys kv h).1) (by simp) hnd

end Callback

namespace Callback

theorem noop_no_pipe : '|' ∉ noop_tok := by decide

theorem decode_encode_roundtrip (m c : List Char) (p : List (List Char × List Char))
    (hm : '|' ∉ m) (hc : '|' ∉ c) (hcne : c ≠ [])
    (hkeys : ∀ kv ∈ p, '=' ∉ kv.1 ∧ '&' ∉ kv.1)
    (hvals : ∀ kv ∈ p, '=' ∉ kv.2 ∧ '&' ∉ kv.2)
    (hnd : (p.map Prod.fst).Nodup) :
    parse_cb (encode m c p) = ⟨m, c, p⟩ := by
  by_cases hp : p = []
  · subst hp
    have hbase : encode m c [] = m ++ '|' :: c := by simp [encode]
    have hdne : m ++ '|' :: c ≠ [] := by simp
    have hmem : '|' ∈ m ++ '|' :: c := by simp
    have hnoop : m ++ '|' :: c ≠ noop_tok := fun e => noop_no_pipe (e ▸ hmem)
    rw [hbase]
    simp only [parse_cb, pySplit2, if_neg hdne, if_neg hnoop,
      firstSplit_append c hm, firstSplit_of_not_mem hc, if_neg hcne]
    simp
  · have henc : encode m c p
        = m ++ '|' :: (c ++ '|' :: List.intercalate ['&']
            (p.map (fun kv => kv.1 ++ '=' :: kv.2))) := by
      simp [encode, hp]
    have hqne : List.intercalate ['&'] (p.map (fun kv => kv.1 ++ '=' :: kv.2)) ≠ [] := by
      rcases p with _ | ⟨kv, rest⟩
      · exact absurd rfl hp
      · rw [List.map_cons]
        exact intercalate_cons_ne_nil _ _ _ (by simp)
    have hdne : m ++ '|' :: (c ++ '|' :: List.intercalate ['&']
        (p.map (fun kv => kv.1 ++ '=' :: kv.2))) ≠ [] := by simp
    have hmem : '|' ∈ m ++ '|' :: (c ++ '|' :: List.intercalate ['&']
        (p.map (fun kv => kv.1 ++ '=' :: kv.2))) := by simp
    have hnoop : m ++ '|' :: (c ++ '|' :: List.intercalate ['&']
        (p.map (fun kv => kv.1 ++ '=' :: kv.2))) ≠ noop_tok :=
      fun e => noop_no_pipe (e ▸ hmem)
    rw [henc]
    simp only [parse_cb, pySplit2, if_neg hdne, if_neg hnoop,
      firstSplit_append _ hm, firstSplit_append _ hc, if_neg hcne, if_neg hqne]
    simp [parseParams_intercalate p hkeys hvals hnd hp]

end Callback

namespace Callback

theorem splitOn_eq_single {x : Char} {l : List Char} (h : x ∉ l) : l.splitOn x = [l] := by
  apply List.splitOnP_eq_single
  intro y hy
  simp only [beq_iff_eq]
  exact fun e => h (e ▸ hy)

/-- C5 counterexample: the claim restricts only param values, but a param
key containing the reserved character `=` breaks the round trip: with
module `"x"`, cmd `"y"` and params `{"a=b": "c"}` (whose value `"c"`
contains neither `=` nor `&`), decoding the encoded token yields params
`{"a": "b=c"}`, not the original map. -/
theorem C5_roundtrip_cex :
    parse_cb (encode "x".toList "y".toList [("a=b".toList, "c".toList)]) ≠
      ⟨"x".toList, "y".toList, [("a=b".toList, "c".toList)]⟩ := by decide

/-- C5 (amended): decoding the token produced by `encode m c p` yields back
exactly `(m, c, p)` for every module `m` and cmd `c` free of the delimiter
`|`, provided additionally that `c` is nonempty and the param keys (not
only the values) contain neither `=` nor `&`, with pairwise distinct keys. -/
theorem C5_decode_encode (m c : List Char) (p : List (List Char × List Char))
    (hm : '|' ∉ m) (hc : '|' ∉ c) (hcne : c ≠ [])
    (hkeys : ∀ kv ∈ p, '=' ∉ kv.1 ∧ '&' ∉ kv.1)
    (hvals : ∀ kv ∈ p, '=' ∉ kv.2 ∧ '&' ∉ kv.2)
    (hnd : (p.map Prod.fst).Nodup) :
    parse_cb (encode m c p) = ⟨m, c, p⟩ :=
  decode_encode_roundtrip m c p hm hc hcne hkeys hvals hnd

/-- C5 witness: the amended round trip at the concrete token
`"aw|tun_act|id=wg0&a=start"`. -/
theorem C5_decode_encode_witness :
    parse_cb (encode "aw".toList "tun_act".toList
        [("id".toList, "wg0".toList), ("a".toList, "start".toList)]) =
      ⟨"aw".toList, "tun_act".toList,
        [("id".toList, "wg0".toList), ("a".toList, "start".toList)]⟩ :=
  C5_decode_encode _ _ _ (by decide) (by decide) (by decide) (by decide) (by decide)
    (by decide)

end Callback

namespace Callback

/-- C6: `parse_cb` is a total function of the token (the embedding is a
total Lean function mirroring code with no failing operation); a missing
or empty cmd segment yields the canonical default cmd `"m"`, a missing
params segment yields an empty map, a param segment without `=` becomes a
key mapped to the empty string, and in particular
`decode "r|m|" = ("r", "m", {})` and
`decode "aw|tun_act|id=wg0&a=start" = ("aw", "tun_act", {id: "wg0", a: "start"})`. -/
theorem C6_decode_total_defaults :
    (∀ m : List Char, '|' ∉ m → m ≠ [] → m ≠ noop_tok →
      parse_cb m = ⟨m, default_cmd, []⟩) ∧
    (∀ m : List Char, '|' ∉ m → m ≠ [] →
      parse_cb (m ++ ['|']) = ⟨m, default_cmd, []⟩) ∧
    (∀ m c k : List Char, '|' ∉ m → '|' ∉ c → c ≠ [] → k ≠ [] → '=' ∉ k → '&' ∉ k →
      parse_cb (m ++ '|' :: (c ++ '|' :: k)) = ⟨m, c, [(k, [])]⟩) ∧
    parse_cb "r|m|".toList = ⟨"r".toList, "m".toList, []⟩ ∧
    parse_cb "aw|tun_act|id=wg0&a=start".toList =
      ⟨"aw".toList, "tun_act".toList,
        [("id".toList, "wg0".toList), ("a".toList, "start".toList)]⟩ := by
  refine ⟨?_, ?_, ?_, by decide, by decide⟩
  · intro m hm hne hnoop
    simp only [parse_cb, pySplit2, if_neg hne, if_neg hnoop, firstSplit_of_not_mem hm]
    simp
  · intro m hm hne
    have hdne : m ++ ['|'] ≠ [] := by simp
    have hmem : '|' ∈ m ++ ['|'] := by simp
    have hnoop : m ++ ['|'] ≠ noop_tok := fun e => noop_no_pipe (e ▸ hmem)
    simp only [parse_cb, pySplit2, if_neg hdne, if_neg hnoop, firstSplit_append [] hm]
    simp [firstSplit, default_cmd]
  · intro m c k hm hc hcne hkne hkeq hkamp
    have hdne : m ++ '|' :: (c ++ '|' :: k) ≠ [] := by simp
    have hmem : '|' ∈ m ++ '|' :: (c ++ '|' :: k) := by simp
    have hnoop : m ++ '|' :: (c ++ '|' :: k) ≠ noop_tok := fun e => noop_no_pipe (e ▸ hmem)
    have hpp : parseParams k = [(k, [])] := by
      rw [parseParams, splitOn_eq_single hkamp]
      simp [if_neg hkne, firstSplit_of_not_mem hkeq, dictSet]
    simp only [parse_cb, pySplit2, if_neg hdne, if_neg hnoop,
      firstSplit_append (c ++ '|' :: k) hm, firstSplit_append k hc,
      if_neg hcne, if_neg hkne, hpp]
    simp

/-- C6 witness: the default-cmd and bare-key parts at concrete tokens
`"r"`, `"r|"` and `"aw|x|flag"`. -/
theorem C6_decode_total_defaults_witness :
    parse_cb "r".toList = ⟨"r".toList, default_cmd, []⟩ ∧
    parse_cb "r|".toList = ⟨"r".toList, default_cmd, []⟩ ∧
    parse_cb "aw|x|flag".toList = ⟨"aw".toList, "x".toList, [("flag".toList, [])]⟩ := by
  refine ⟨?_, ?_, ?_⟩
  · exact C6_decode_total_defaults.1 "r".toList (by decide) (by decide) (by decide)
  · exact C6_decode_total_defaults.2.1 "r".toList (by decide) (by decide)
  · exact C6_decode_total_defaults.2.2.1 "aw".toList "x".toList "flag".toList
      (by decide) (by decide) (by decide) (by decide) (by decide) (by decide)

end Callback

namespace PendingUI

/-- The stored entry of `PendingStore` in `src/modules/ui.py`
(dataclass `Pending`): kind tag, payload, absolute expiry time. -/
structure Pending (α : Type) where
  kind : String
  data : α
  expires_at : Int
  deriving DecidableEq, Repr

/-- The `PendingStore._pending` dict, keyed by `(chat_id, user_id)`. -/
def Store (α : Type) : Type := Int × Int → Option (Pending α)

/-- The empty store. -/
def emptyStore (α : Type) : Store α := fun _ => none

namespace PendingStore

/-- `PendingStore.set` (src/modules/ui.py lines 454-456): overwrite the
entry for `(chat_id, user_id)` with expiry `now + ttl_sec`. -/
def set {α : Type} (s : Store α) (chat_id user_id : Int) (kind : String) (data : α)
    (ttl_sec now : Int) : Store α :=
  fun key => if key = (chat_id, user_id) then some ⟨kind, data, now + ttl_sec⟩ else s key

/-- `PendingStore.pop` (src/modules/ui.py lines 458-463): remove the entry
unconditionally, then return it unless it had already expired
(`p.expires_at < time.time()`), in which case return `None`. -/
def pop {α : Type} (s : Store α) (chat_id user_id : Int) (now : Int) :
    Option (Pending α) × Store α :=
  let p := s (chat_id, user_id)
  let s1 : Store α := fun key => if key = (chat_id, user_id) then none else s key
  (match p with
   | some q => if q.expires_at < now then none else some q
   | none => none,
   s1)

/-- `PendingStore.peek` (src/modules/ui.py lines 465-470): read without
clearing, with the same expiry check as `pop`. -/
def peek {α : Type} (s : Store α) (chat_id user_id : Int) (now : Int) :
    Option (Pending α) :=
  match s (chat_id, user_id) with
  | some q => if q.expires_at < now then none else some q
  | none => none

end PendingStore

/-- C4: for every key, `set` followed by an immediate `pop` returns exactly
the stored entry; a second `pop` on the same key (at any time) returns
absence; and any read (`pop` or `peek`) performed strictly after the
entry's TTL has elapsed returns absence even without an intervening `pop`. -/
theorem C4_set_pop_ttl {α : Type} (s : Store α) (chat_id user_id : Int) (kind : String)
    (data : α) (ttl_sec now t2 later : Int) (httl : 0 ≤ ttl_sec)
    (hlater : now + ttl_sec < later) :
    (PendingStore.pop (PendingStore.set s chat_id user_id kind data ttl_sec now)
        chat_id user_id now).1 = some ⟨kind, data, now + ttl_sec⟩ ∧
    (PendingStore.pop
        (PendingStore.pop (PendingStore.set s chat_id user_id kind data ttl_sec now)
          chat_id user_id now).2 chat_id user_id t2).1 = none ∧
    (PendingStore.pop (PendingStore.set s chat_id user_id kind data ttl_sec now)
        chat_id user_id later).1 = none ∧
    PendingStore.peek (PendingStore.set s chat_id user_id kind data ttl_sec now)
        chat_id user_id later = none := by
  have h1 : ¬ (now + ttl_sec < now) := by omega
  have h2 : now + ttl_sec < later := hlater
  refine ⟨?_, ?_, ?_, ?_⟩
  · simp [PendingStore.pop, PendingStore.set, h1]
  · simp [PendingStore.pop]
  · simp [PendingStore.pop, PendingStore.set, h2]
  · simp [PendingStore.peek, PendingStore.set, h2]

/-- C4 witness: a concrete entry set at time 100 with TTL 300 is returned
by an immediate pop, absent on a second pop, and absent on reads at
time 401. -/
theorem C4_set_pop_ttl_witness :
    0 ≤ (300 : Int) ∧ (100 : Int) + 300 < 401 ∧
    (PendingStore.pop (PendingStore.set (emptyStore Nat) 1 2 "k" 7 300 100) 1 2 100).1
      = some ⟨"k", 7, 400⟩ := by
  have h := C4_set_pop_ttl (emptyStore Nat) 1 2 "k" 7 300 100 150 401
    (by omega) (by omega)
  exact ⟨by omega, by omega, h.1⟩

/-- C10: an entry whose TTL has elapsed is consumed by `pop` (absence is
returned and the entry is removed), whereas `peek` returns absence but
performs no write at all — `peek` returns no updated store in the
embedding, mirroring the Python method that never mutates `_pending` —
so the expired entry stays in the store until a later `pop` or `set`
touches that key. -/
theorem C10_expired_pop_vs_peek {α : Type} (s : Store α) (chat_id user_id now : Int)
    (p : Pending α) (hp : s (chat_id, user_id) = some p) (hexp : p.expires_at < now) :
    (PendingStore.pop s chat_id user_id now).1 = none ∧
    (PendingStore.pop s chat_id user_id now).2 (chat_id, user_id) = none ∧
    PendingStore.peek s chat_id user_id now = none := by
  refine ⟨?_, by simp [PendingStore.pop], ?_⟩
  · simp [PendingStore.pop, hp, hexp]
  · simp [PendingStore.peek, hp, hexp]

/-- C10 witness: a concrete store holding an entry expired at time 5,
read at time 10. -/
theorem C10_expired_pop_vs_peek_witness :
    (PendingStore.pop (PendingStore.set (emptyStore Nat) 1 2 "k" 7 4 1) 1 2 10).1 = none ∧
    PendingStore.peek (PendingStore.set (emptyStore Nat) 1 2 "k" 7 4 1) 1 2 10 = none := by
  have h := C10_expired_pop_vs_peek
    (PendingStore.set (emptyStore Nat) 1 2 "k" 7 4 1) 1 2 10 ⟨"k", 7, 5⟩ (by rfl) (by norm_num)
  exact ⟨h.1, h.2.2⟩

end PendingUI

namespace Monitor

/-- The notification-relevant state of `Monitor` in `src/modules/monitor.py`:
`_service_state` (per-service last stored boolean sample) and
`_notify_last` (per-key last-fired time; `dict.get(key, 0)` is modelled by
a total function whose initial value is 0 everywhere). -/
structure MonState where
  service_state : String → Option Bool
  notify_last : String → Int

/-- The freshly constructed monitor state: empty `_service_state`,
`_notify_last` reads as 0 for every key. -/
def initState : MonState :=
  { service_state := fun _ => none, notify_last := fun _ => 0 }

/-- `Monitor._cooldown_ok` (src/modules/monitor.py lines 53-60): allow and
record `now` when `now - last >= min_iv`, else refuse and leave the map
unchanged. -/
def cooldown_ok (notify_last : String → Int) (now : Int) (key : String) (min_iv : Int) :
    Bool × (String → Int) :=
  let last := notify_last key
  if min_iv ≤ now - last then
    (true, fun k => if k = key then now else notify_last k)
  else (false, notify_last)

/-- The per-service body of the `for k, v in current.items()` loop in
`Monitor._check_services` (src/modules/monitor.py lines 134-151): read the
previous sample, store the current one, skip when there is no baseline,
and notify only on an up-to-down transition (`prev and (not v)`), gated by
`notify_on_service_down` and `_cooldown_ok("svc:" + k)`. Returns the new
state and whether a notification fired. -/
def check_service_key (notify_on_service_down : Bool) (cooldown now : Int)
    (k : String) (v : Bool) (st : MonState) : MonState × Bool :=
  let prev := st.service_state k
  let st1 : MonState :=
    { st with service_state := fun k2 => if k2 = k then some v else st.service_state k2 }
  match prev with
  | none => (st1, false)
  | some p =>
    if p && !v && notify_on_service_down then
      let r := cooldown_ok st1.notify_last now ("svc:" ++ k) cooldown
      ({ st1 with notify_last := r.2 }, r.1)
    else (st1, false)

/-- Feed a sequence of boolean samples for one service key through
`_check_services`, one sample per tick, ticks at times `t0, t0+iv, …`.
Returns the final state and the per-sample fired flags. -/
def feedService (notify_on : Bool) (cooldown iv : Int) (k : String) :
    Int → List Bool → MonState → MonState × List Bool
  | _, [], st => (st, [])
  | t0, v :: vs, st =>
    let r1 := check_service_key notify_on cooldown t0 k v st
    let r2 := feedService notify_on cooldown iv k (t0 + iv) vs r1.1
    (r2.1, r1.2 :: r2.2)

/-- The notification-relevant state of `Monitor` in
`keenetic-tg-bot/modules/monitor.py`: `_last_sent` and
`_last_service_state` (string statuses from `comp.quick_status()`). -/
structure TickState where
  last_sent : String → Int
  last_service_state : String → Option String

/-- The freshly constructed keenetic-tg-bot monitor state. -/
def initTickState : TickState :=
  { last_sent := fun _ => 0, last_service_state := fun _ => none }

/-- `Monitor._cooldown_ok` of `keenetic-tg-bot/modules/monitor.py`
(lines 25-31): same read-check-record shape over `_last_sent`. -/
def tick_cooldown_ok (last_sent : String → Int) (now : Int) (key : String)
    (cooldown_sec : Int) : Bool × (String → Int) :=
  let last := last_sent key
  if cooldown_sec ≤ now - last then
    (true, fun k => if k = key then now else last_sent k)
  else (false, last_sent)

/-- The per-component body of the service loop in `Monitor.tick`
(keenetic-tg-bot/modules/monitor.py lines 67-82): a raised `quick_status`
(modelled as `none` sample) or an empty status is skipped; the first
non-empty status only records a baseline; afterwards any status change
records the new status and notifies when `_cooldown_ok("svc_" + comp_id)`
allows. -/
def tick_service_step (cooldown now : Int) (comp_id : String) (st : Option String)
    (s : TickState) : TickState × Bool :=
  match st with
  | none => (s, false)
  | some stv =>
    if stv = "" then (s, false)
    else
      match s.last_service_state comp_id with
      | none =>
        ({ s with last_service_state :=
            fun c => if c = comp_id then some stv else s.last_service_state c }, false)
      | some prev =>
        if stv ≠ prev then
          let s1 : TickState :=
            { s with last_service_state :=
                fun c => if c = comp_id then some stv else s.last_service_state c }
          let r := tick_cooldown_ok s1.last_sent now ("svc_" ++ comp_id) cooldown
          ({ s1 with last_sent := r.2 }, r.1)
        else (s, false)

/-- Feed a sequence of status samples for one component through
`Monitor.tick`'s service loop, one sample per tick, at times `t0, t0+iv, …`. -/
def feedTick (cooldown iv : Int) (comp_id : String) :
    Int → List (Option String) → TickState → TickState × List Bool
  | _, [], s => (s, [])
  | t0, st :: sts, s =>
    let r1 := tick_service_step cooldown t0 comp_id st s
    let r2 := feedTick cooldown iv comp_id (t0 + iv) sts r1.1
    (r2.1, r1.2 :: r2.2)

end Monitor

namespace Monitor

/-- C1 counterexample: feeding the sample sequence
`up, up, down, down, down, up` (ticks at 1000, 1010, …, cooldown 15 >
interval 10) through the `_check_services` edge-triggered check of
`src/modules/monitor.py` produces exactly one notification — the code
notifies only on `prev and (not v)`, i.e. up-to-down, and is silent on the
down-to-up transition — so the claimed count of two is false. -/
theorem C1_service_sequence_cex :
    ((feedService true 15 10 "hydra" 1000 [true, true, false, false, false, true]
      initState).2.count true) ≠ 2 := by decide

/-- C1 (amended): for the `_check_services` check of
`src/modules/monitor.py`, the sequence `up, up, down, down, down, up`
(cooldown 15 longer than the sampling interval 10) produces exactly one
notification, fired on the up-to-down sample (the third); a notification
is never fired on a sample that equals the stored previous sample; and the
claimed two notifications (one per transition in either direction) do hold
for the status-change service check of `Monitor.tick` in
`keenetic-tg-bot/modules/monitor.py` on the same sequence and timing. -/
theorem C1_service_edge_trigger :
    (feedService true 15 10 "hydra" 1000 [true, true, false, false, false, true]
      initState).2 = [false, false, true, false, false, false] ∧
    (∀ (notify_on : Bool) (cooldown now : Int) (k : String) (v : Bool) (st : MonState),
      st.service_state k = some v →
      (check_service_key notify_on cooldown now k v st).2 = false) ∧
    (feedTick 15 10 "hydra" 1000
      [some "up", some "up", some "down", some "down", some "down", some "up"]
      initTickState).2 = [false, false, true, false, false, true] := by
  refine ⟨by decide, ?_, by decide⟩
  intro notify_on cooldown now k v st hprev
  simp only [check_service_key, hprev]
  cases v <;> simp

/-- C1 witness: the no-notification-on-equal-sample part at a concrete
state that already stores `some true` for the key. -/
theorem C1_service_edge_trigger_witness :
    ({ service_state := fun _ => some true, notify_last := fun _ => 0 } :
        MonState).service_state "hydra" = some true ∧
    (check_service_key true 15 1000 "hydra" true
      { service_state := fun _ => some true, notify_last := fun _ => 0 }).2 = false :=
  ⟨rfl, C1_service_edge_trigger.2.1 true 15 1000 "hydra" true _ rfl⟩

/-- The guarded threshold check of `Monitor._check_resources`
(src/modules/monitor.py lines 179-203): Python's `and` short-circuit means
`_cooldown_ok` runs — and records the fire time — only when the resource
condition currently holds; there is no stored previous sample for
threshold checks. -/
def check_resource (threshold_holds : Bool) (interval now : Int) (key : String)
    (notify_last : String → Int) : Bool × (String → Int) :=
  if threshold_holds then cooldown_ok notify_last now key interval
  else (false, notify_last)

/-- Run `check_resource` over a sequence of ticks `(now, holds)`;
returns the final `_notify_last` map and the times of fired notifications
in order. -/
def runThreshold (interval : Int) (key : String) :
    List (Int × Bool) → (String → Int) → (String → Int) × List Int
  | [], nl => (nl, [])
  | tick :: rest, nl =>
    let r1 := check_resource tick.2 interval tick.1 key nl
    let r2 := runThreshold interval key rest r1.2
    (r2.1, if r1.1 then tick.1 :: r2.2 else r2.2)

/-- C8: a Monitor threshold check fires on a tick exactly when the
condition currently holds and at least the cooldown interval has passed
since the key last fired (the state carries no previous-sample memory, so
this is independent of the previous tick); and across any run of ticks,
successive fire times — starting from the key's last recorded fire — are
at least one cooldown interval apart, so at most one notification fires
per cooldown window. -/
theorem C8_threshold_cooldown :
    (∀ (holds : Bool) (interval now : Int) (key : String) (nl : String → Int),
      (check_resource holds interval now key nl).1 = true ↔
        (holds = true ∧ interval ≤ now - nl key)) ∧
    (∀ (interval : Int) (key : String) (ticks : List (Int × Bool)) (nl : String → Int),
      List.Chain' (fun a b => interval ≤ b - a)
        (nl key :: (runThreshold interval key ticks nl).2)) := by
  constructor
  · intro holds interval now key nl
    by_cases h : interval ≤ now - nl key <;> cases holds <;>
      simp [check_resource, cooldown_ok, h]
  · intro interval key ticks
    induction ticks with
    | nil => intro nl; simp [runThreshold]
    | cons tick rest ih =>
      intro nl
      by_cases hh : tick.2 = true
      · by_cases hcd : interval ≤ tick.1 - nl key
        · have hstep : check_resource tick.2 interval tick.1 key nl =
              (true, fun k => if k = key then tick.1 else nl k) := by
            simp [check_resource, cooldown_ok, hh, hcd]
          have := ih (fun k => if k = key then tick.1 else nl k)
          rw [if_pos rfl] at this
          simp only [runThreshold, hstep]
          exact List.Chain'.cons hcd this
        · have hstep : check_resource tick.2 interval tick.1 key nl = (false, nl) := by
            simp [check_resource, cooldown_ok, hh, hcd]
          simpa [runThreshold, hstep] using ih nl
      · have hstep : check_resource tick.2 interval tick.1 key nl = (false, nl) := by
          simp [check_resource, hh]
        simpa [runThreshold, hstep] using ih nl

end Monitor

namespace MonitorRun

/-- One condition check of a Monitor tick, as a state transformer that may
raise (`Except.error` models a Python exception). -/
def Check (σ ε : Type) : Type := σ → Except ε σ

/-- The body of one tick of `Monitor.run` (src/modules/monitor.py lines
420-434, likewise `keenetic-tg-bot/modules/monitor.py` lines 35-40): the
checks of one tick run sequentially inside a single shared `try`; the
first exception aborts the remaining checks of that tick and is caught
(and logged) at the tick level. Returns the state after the checks that
ran and the caught exception, if any. -/
def tickOnce {σ ε : Type} : List (Check σ ε) → σ → σ × Option ε
  | [], s => (s, none)
  | c :: cs, s =>
    match c s with
    | Except.ok s1 => tickOnce cs s1
    | Except.error e => (s, some e)

/-- The monitor loop (`while not self._stop.is_set()` around the tick's
`try/except`): every scheduled tick runs, whatever earlier ticks caught.
Returns the final state and the per-tick caught exceptions. -/
def monitorRun {σ ε : Type} : List (List (Check σ ε)) → σ → σ × List (Option ε)
  | [], s => (s, [])
  | t :: ts, s =>
    let r1 := tickOnce t s
    let r2 := monitorRun ts r1.1
    (r2.1, r1.2 :: r2.2)

/-- C3 counterexample: with a first check that raises and a second check
that increments a counter, the tick ends with the counter still 0 — the
remaining check of the same tick did NOT run, because the `try` in
`Monitor.run` wraps the whole tick, not each check — refuting the claim
that all remaining checks of that tick still run. -/
theorem C3_tick_abort_cex :
    (tickOnce [fun _ => Except.error (), fun n => Except.ok (n + 1)] (0 : Nat)).1 ≠ 1 ∧
    tickOnce [fun _ => Except.error (), fun n => Except.ok (n + 1)] (0 : Nat)
      = (0, some ()) := by
  exact ⟨by decide, rfl⟩

/-- C3 (amended): an exception raised inside one condition check is caught
at the tick level (it becomes a recorded `some e`, never a propagated
failure), the remaining checks of that same tick are skipped, and every
later tick still runs — the loop records exactly one outcome per scheduled
tick regardless of which checks raised. -/
theorem C3_tick_exception_contained {σ ε : Type} :
    (∀ (c : Check σ ε) (cs : List (Check σ ε)) (s : σ) (e : ε),
      c s = Except.error e → tickOnce (c :: cs) s = (s, some e)) ∧
    (∀ (ticks : List (List (Check σ ε))) (s : σ),
      (monitorRun ticks s).2.length = ticks.length) := by
  constructor
  · intro c cs s e hc
    simp [tickOnce, hc]
  · intro ticks
    induction ticks with
    | nil => intro s; rfl
    | cons t ts ih => intro s; simp [monitorRun, ih]

/-- C3 witness: the containment applied to the concrete raising check of
the counterexample scenario, plus the loop running a tick after a tick
that raised. -/
theorem C3_tick_exception_contained_witness :
    ((fun _ => Except.error ()) : Check Nat Unit) 0 = Except.error () ∧
    tickOnce [(fun _ => Except.error ()), fun n => Except.ok (n + 1)] (0 : Nat)
      = (0, some ()) ∧
    (monitorRun [[fun _ => Except.error ()], [fun n => Except.ok (n + 1)]]
      (0 : Nat)).2.length = 2 :=
  ⟨rfl,
   C3_tick_exception_contained.1 (fun _ => Except.error ()) [fun n => Except.ok (n + 1)]
     0 () rfl,
   C3_tick_exception_contained.2 [[fun _ => Except.error ()], [fun n => Except.ok (n + 1)]] 0⟩

end MonitorRun

namespace Shell

/-- `ShellResult` from `keenetic-tg-bot/modules/utils/shell.py`. -/
structure ShellResult where
  cmd : String
  rc : Int
  out : String
  err : String
  ms : Int
  deriving DecidableEq, Repr

/-- `Shell._cache`: command string → (capture time, result). -/
def Cache : Type := String → Option (Int × ShellResult)

/-- The empty cache of a fresh `Shell`. -/
def emptyCache : Cache := fun _ => none

/-- `Shell.run` (keenetic-tg-bot/modules/utils/shell.py lines 54-118) for a
string command: when `ttl > 0` and a cached entry for the exact command
string has age `now - capturedAt ≤ ttl`, return it without executing;
otherwise execute (the `subprocess.run` machinery, including its
timeout-to-rc-124 conversion, is abstracted as the oracle `exec`) and,
when `ttl > 0`, store the result keyed by the exact command string with
the pre-execution timestamp `now`. The returned Bool records whether the
underlying command was executed. -/
def run (exec : String → Int → ShellResult) (cmd : String) (ttl now : Int)
    (cache : Cache) : ShellResult × Cache × Bool :=
  let hit :=
    if 0 < ttl then
      match cache cmd with
      | some c => if now - c.1 ≤ ttl then some c.2 else none
      | none => none
    else none
  match hit with
  | some res => (res, cache, false)
  | none =>
    let res := exec cmd now
    let cache1 : Cache :=
      if 0 < ttl then fun c => if c = cmd then some (now, res) else cache c
      else cache
    (res, cache1, true)

/-- C7: with `cacheTtlSec > 0`, a cached entry for the exact command string
whose age is at most the caller-supplied TTL is returned without executing
the command; a missing or stale entry causes execution and storage of the
fresh result; and in the concrete three-call scenario (identical command,
ttl 5, calls at times 0, 2 and 6) the first call executes, the second is
served from cache with the first call's result, and the third re-executes. -/
theorem C7_shell_cache (exec : String → Int → ShellResult) (cmd : String)
    (ttl now t : Int) (cache : Cache) (res : ShellResult) :
    (0 < ttl → cache cmd = some (t, res) → now - t ≤ ttl →
      run exec cmd ttl now cache = (res, cache, false)) ∧
    (0 < ttl → cache cmd = none →
      run exec cmd ttl now cache =
        (exec cmd now, fun c => if c = cmd then some (now, exec cmd now) else cache c,
         true)) ∧
    (0 < ttl → cache cmd = some (t, res) → ttl < now - t →
      run exec cmd ttl now cache =
        (exec cmd now, fun c => if c = cmd then some (now, exec cmd now) else cache c,
         true)) ∧
    ((run exec cmd 5 0 emptyCache).2.2 = true ∧
     (run exec cmd 5 2 (run exec cmd 5 0 emptyCache).2.1).2.2 = false ∧
     (run exec cmd 5 2 (run exec cmd 5 0 emptyCache).2.1).1
       = (run exec cmd 5 0 emptyCache).1 ∧
     (run exec cmd 5 6 (run exec cmd 5 2 (run exec cmd 5 0 emptyCache).2.1).2.1).2.2
       = true) := by
  refine ⟨?_, ?_, ?_, ?_, ?_, ?_, ?_⟩
  · intro h1 h2 h3
    simp [run, h1, h2, h3]
  · intro h1 h2
    simp [run, h1, h2]
  · intro h1 h2 h3
    simp [run, h1, h2, not_le.mpr h3]
  · simp [run, emptyCache]
  · norm_num [run, emptyCache]
  · norm_num [run, emptyCache]
  · norm_num [run, emptyCache]

/-- C7 witness: the cache-hit branch at a concrete cache holding a
2-second-old entry under TTL 5. -/
theorem C7_shell_cache_witness :
    (0 : Int) < 5 ∧
    ((fun c => if c = "uname" then some ((0 : Int), ShellResult.mk "uname" 0 "Linux" "" 3)
        else none) : Cache) "uname" = some (0, ShellResult.mk "uname" 0 "Linux" "" 3) ∧
    (2 : Int) - 0 ≤ 5 ∧
    run (fun c _ => ShellResult.mk c 0 "" "" 1) "uname" 5 2
        (fun c => if c = "uname" then some ((0 : Int), ShellResult.mk "uname" 0 "Linux" "" 3)
          else none)
      = (ShellResult.mk "uname" 0 "Linux" "" 3,
         (fun c => if c = "uname" then some ((0 : Int), ShellResult.mk "uname" 0 "Linux" "" 3)
            else none),
         false) :=
  ⟨by norm_num, by norm_num, by norm_num,
   (C7_shell_cache (fun c _ => ShellResult.mk c 0 "" "" 1) "uname" 5 2 0
      (fun c => if c = "uname" then some ((0 : Int), ShellResult.mk "uname" 0 "Linux" "" 3)
        else none)
      (ShellResult.mk "uname" 0 "Linux" "" 3)).1
     (by norm_num) (by norm_num) (by norm_num)⟩

end Shell

namespace Lock

/-- The on-disk state seen by `App._acquire_instance_lock`
(src/modules/app.py lines 1338-1367): whether the lock directory exists,
and the pid its pid file records (`none` models a missing or unparseable
pid file, which the `except` branch treats exactly like a dead pid). -/
structure LockFs where
  lock_dir : Bool
  pid_file : Option Int
  deriving DecidableEq, Repr

/-- `App._acquire_instance_lock`: `mkdir(exist_ok=False)` succeeds when the
directory is absent and the caller writes its own pid and succeeds; on
`FileExistsError` the recorded pid is probed with `os.kill(pid, 0)`
(abstracted as the oracle `alive`) — a live pid refuses the lock, anything
else (dead pid, unreadable pid file) removes the stale lock directory,
re-creates it, writes the caller's pid and succeeds. -/
def acquire_instance_lock (alive : Int → Bool) (my_pid : Int) (fs : LockFs) :
    Bool × LockFs :=
  if fs.lock_dir then
    match fs.pid_file with
    | some pid =>
      if alive pid then (false, fs)
      else (true, { lock_dir := true, pid_file := some my_pid })
    | none => (true, { lock_dir := true, pid_file := some my_pid })
  else (true, { lock_dir := true, pid_file := some my_pid })

/-- C9: an acquisition attempt while the lock exists and its recorded pid
is alive returns failure and leaves the lock untouched; an attempt when
the recorded pid is no longer alive removes the stale lock, re-creates it
with the caller's pid recorded, and returns success. -/
theorem C9_instance_lock (alive : Int → Bool) (my_pid pid : Int) (fs : LockFs)
    (hdir : fs.lock_dir = true) (hpid : fs.pid_file = some pid) :
    (alive pid = true → acquire_instance_lock alive my_pid fs = (false, fs)) ∧
    (alive pid = false →
      acquire_instance_lock alive my_pid fs
        = (true, { lock_dir := true, pid_file := some my_pid })) := by
  constructor
  · intro halive
    simp [acquire_instance_lock, hdir, hpid, halive]
  · intro hdead
    simp [acquire_instance_lock, hdir, hpid, hdead]

/-- C9 witness: a concrete lock held by pid 42 probed under a liveness
oracle in which only pid 42 is alive (second attempt fails), then under
an oracle in which no pid is alive (stale lock reclaimed by pid 99). -/
theorem C9_instance_lock_witness :
    (LockFs.mk true (some 42)).lock_dir = true ∧
    (LockFs.mk true (some 42)).pid_file = some 42 ∧
    acquire_instance_lock (fun p => p = 42) 99 (LockFs.mk true (some 42))
      = (false, LockFs.mk true (some 42)) ∧
    acquire_instance_lock (fun _ => false) 99 (LockFs.mk true (some 42))
      = (true, LockFs.mk true (some 99)) :=
  ⟨rfl, rfl,
   (C9_instance_lock (fun p => p = 42) 99 42 (LockFs.mk true (some 42)) rfl rfl).1
     (by decide),
   (C9_instance_lock (fun _ => false) 99 42 (LockFs.mk true (some 42)) rfl rfl).2 rfl⟩

end Lock
